import Mathlib

set_option maxHeartbeats 1000000

/-!
# A shallow embedding of the valog value-log core

Definitions are translated from the repository's source:
`src/log/writer.rs` (insert path), `src/log/reader.rs` (read path),
`src/log.rs` (ValuePointer, ValueLog), `src/error.rs` (Error),
`src/options.rs` and `src/options/{builder,open_options}.rs`
(Options, header write/check at open time).

The arena allocator (the external `rarena-allocator` crate) is not part of
this repository; it is modelled from the specification's arena contract
(spec sections 3.1 and 6.4) together with the concrete values asserted by
the repository's own doc-tests (for example `Log::data_offset` in
`src/log/common.rs`).
-/

/-- Byte-addressed arena memory: one byte value per offset. -/
def Mem : Type := Nat → Nat

/-- Length in bytes of the trailing checksum of every record
(`CHECKSUM_LEN` in `src/log.rs`). -/
def CHECKSUM_LEN : Nat := 8

/-- Store one byte `b` at offset `i`. -/
def store1 (m : Mem) (i b : Nat) : Mem :=
  fun j => if j = i then b else m j

/-- Store the byte list `bs` into memory starting at offset `off`
(the writer's in-place buffer fill). -/
def storeBytes (m : Mem) (off : Nat) (bs : List Nat) : Mem :=
  fun j => if off ≤ j ∧ j < off + bs.length then bs.getD (j - off) 0 else m j

/-- Read `n` consecutive bytes starting at offset `off`
(the arena's `get_bytes`). -/
def readBytes (m : Mem) (off n : Nat) : List Nat :=
  (List.range n).map fun i => m (off + i)

/-- Little-endian byte decoding (`u64::from_le_bytes`, `u16::from_le_bytes`):
the first byte is least significant. -/
def fromLeBytes : List Nat → Nat
  | [] => 0
  | b :: bs => b + 256 * fromLeBytes bs

/-- Little-endian encoding of `n` into `k` bytes (`to_le_bytes`). -/
def toLeBytes : Nat → Nat → List Nat
  | 0, _ => []
  | k + 1, n => n % 256 :: toLeBytes k (n / 256)

/-- The 8-byte little-endian encoding of a `u64`
(`put_u64_le_unchecked` in the writer). -/
def u64le (n : Nat) : List Nat := toLeBytes 8 n

/-- The 2-byte little-endian encoding of a `u16` (the magic version field). -/
def u16le (n : Nat) : List Nat := toLeBytes 2 n

/-- The error enum of `src/error.rs`. It has exactly these variants; in
particular there is no variant for an id mismatch. The payload of the `IO`
variant (`std::io::Error`) is abstracted away. -/
inductive Error where
  | insufficientSpace (requested : Nat) (available : Nat)
  | valueTooLarge (size : Nat) (maximum : Nat)
  | outOfBounds (offset : Nat) (len : Nat) (dataOffset : Nat) (endOffset : Nat)
  | checksumMismatch
  | ioError
deriving DecidableEq

/-- Decidable equality for `Except` results, written with explicit matches so
that concrete runs of the embedded operations evaluate inside the kernel. -/
instance instDecEqExcept {ε α : Type} [DecidableEq ε] [DecidableEq α] :
    DecidableEq (Except ε α)
  | .ok a, .ok b =>
    if h : a = b then .isTrue (by subst h; rfl)
    else .isFalse (by intro hc; cases hc; exact h rfl)
  | .error e, .error f =>
    if h : e = f then .isTrue (by subst h; rfl)
    else .isFalse (by intro hc; cases hc; exact h rfl)
  | .ok _, .error _ => .isFalse (by intro hc; cases hc)
  | .error _, .ok _ => .isFalse (by intro hc; cases hc)

/-- `ValuePointer` (`src/log.rs`): the log id, the byte offset of the payload
and the payload size. The struct has no tombstone field. -/
structure ValuePointer where
  id : Nat
  offset : Nat
  size : Nat
deriving DecidableEq

/-- The fields of `Options` (`src/options.rs`) that the log logic reads. -/
structure Options where
  maxValueSize : Nat
  reserved : Nat
  sync : Bool
  validateChecksum : Bool
  magicVersion : Nat
  capacity : Nat
deriving DecidableEq

/-- `Options::new()` defaults (`src/options.rs`): `max_value_size` is
`u32::MAX`, `reserved` 0, `sync` true, `validate_checksum` true,
`magic_version` 0; the capacity is supplied by the builder. -/
def Options.new (capacity : Nat) : Options :=
  { maxValueSize := 2 ^ 32 - 1
    reserved := 0
    sync := true
    validateChecksum := true
    magicVersion := 0
    capacity := capacity }

/-- The flush operations the writer can request from the arena. -/
inductive FlushCall where
  | range (offset : Nat) (len : Nat)
  | headerAndRange (offset : Nat) (len : Nat)
deriving DecidableEq

/-- Modelled from the spec: the arena allocator (`rarena-allocator`) is an
external collaborator specified only through its interface (spec sections 3.1
and 6.4): bump allocation over bytes with an `allocated` high-water mark, a
first allocatable byte `data_offset`, a monotone advisory `discarded` counter
and flush operations. The `flushes` field records the flush calls the log has
issued, newest last. -/
structure Arena where
  dataOffset : Nat
  allocated : Nat
  capacity : Nat
  discarded : Nat
  mem : Mem
  isOndisk : Bool
  flushes : List FlushCall

/-- Modelled from the spec: `alloc_bytes(n) -> BufferHandle |
InsufficientSpace{requested, available}` (spec section 3.1); bump allocation
returns the previous high-water mark as the offset of the new buffer. -/
def Arena.allocBytes (a : Arena) (n : Nat) : Except Error (Arena × Nat) :=
  if a.allocated + n > a.capacity then
    .error (.insufficientSpace n (a.capacity - a.allocated))
  else
    .ok ({ a with allocated := a.allocated + n }, a.allocated)

/-- `ValueLog` (`src/log.rs`): file id, allocator, checksumer and options.
The checksumer is the `BuildChecksumer` type parameter, embedded as a
function from byte lists to naturals. -/
structure LogState where
  fid : Nat
  arena : Arena
  cs : List Nat → Nat
  opts : Options

/-- `Log::checksum` (`src/log.rs`): `checksumer.checksum_one(bytes)`, a `u64`
digest, hence the reduction modulo `2 ^ 64`. -/
def LogState.checksum (s : LogState) (bytes : List Nat) : Nat :=
  s.cs bytes % 2 ^ 64

/-- `insert` (`Writer::insert` via `insert_in`, `src/log/writer.rs`): the
empty-value fast path, the maximum-size check, bump allocation, the in-place
payload write, the little-endian checksum append, the `flush_range` call when
`sync` is set and the arena is on disk, and the returned pointer. -/
def LogState.insert (s : LogState) (v : List Nat) : LogState × Except Error ValuePointer :=
  if v.length = 0 then (s, .ok ⟨s.fid, 0, 0⟩)
  else
    let len := v.length + CHECKSUM_LEN
    if len > s.opts.maxValueSize then
      (s, .error (.valueTooLarge len s.opts.maxValueSize))
    else
      match s.arena.allocBytes len with
      | .error e => (s, .error e)
      | .ok (a1, beginOffset) =>
        let m1 := storeBytes a1.mem beginOffset v
        let cksum := s.checksum v
        let m2 := storeBytes m1 (beginOffset + v.length) (u64le cksum)
        let a2 := { a1 with mem := m2 }
        let a3 :=
          if s.opts.sync = true ∧ a2.isOndisk = true then
            { a2 with flushes := a2.flushes ++ [.range beginOffset len] }
          else a2
        ({ s with arena := a3 }, .ok ⟨s.fid, beginOffset, v.length⟩)

/-- `insert_tombstone` (`src/log/writer.rs`): `insert`, then on success
`increase_discarded(value.len())`. -/
def LogState.insertTombstone (s : LogState) (v : List Nat) :
    LogState × Except Error ValuePointer :=
  match s.insert v with
  | (s1, .ok p) =>
    ({ s1 with
        arena := { s1.arena with discarded := s1.arena.discarded + v.length } },
      .ok p)
  | (s1, .error e) => (s1, .error e)

/-- `read` (`Reader::read`, `src/log/reader.rs`): the empty-pointer fast path
(`offset == 0 && len == 0`), the two bounds checks producing `OutOfBounds`,
then optional checksum validation over the borrowed record bytes. -/
def LogState.read (s : LogState) (offset len : Nat) : Except Error (List Nat) :=
  if offset = 0 ∧ len = 0 then .ok []
  else
    let allocated := s.arena.allocated
    let dOff := s.arena.dataOffset
    if offset < dOff then
      .error (.outOfBounds offset (len + CHECKSUM_LEN) dOff allocated)
    else if offset + len + CHECKSUM_LEN > allocated then
      .error (.outOfBounds offset (len + CHECKSUM_LEN) dOff allocated)
    else
      let buf := readBytes s.arena.mem offset (len + CHECKSUM_LEN)
      if s.opts.validateChecksum = true then
        let stored := fromLeBytes (buf.drop len)
        let digest := s.checksum (buf.take len)
        if stored ≠ digest then .error .checksumMismatch
        else .ok (buf.take len)
      else .ok (buf.take len)

/-- `HEADER_SIZE` (`src/options.rs`): 6 bytes of magic text plus the 2-byte
magic version. -/
def HEADER_SIZE : Nat := 8

/-- Modelled from the spec and the repository's doc-tests: a freshly
allocated in-memory arena (`Builder::alloc`, `unify = false`). Its
`data_offset` is `1 + HEADER_SIZE + reserved`: the doc-test on
`Log::data_offset` (`src/log/common.rs`) asserts `data_offset() = 9` for
`reserved = 0` and `17` for `reserved = 8`. The allocation high-water mark of
an arena holding no records is its `data_offset`, and `discarded` starts at
zero. -/
def freshArena (capacity reserved : Nat) : Arena :=
  { dataOffset := 1 + HEADER_SIZE + reserved
    allocated := 1 + HEADER_SIZE + reserved
    capacity := capacity
    discarded := 0
    mem := fun _ => 0
    isOndisk := false
    flushes := [] }

/-- A fresh in-memory log:
`Builder::new().with_capacity(capacity).alloc(fid)` with checksumer `cs`. -/
def freshLog (cs : List Nat → Nat) (fid capacity : Nat) : LogState :=
  { fid := fid
    arena := freshArena capacity 0
    cs := cs
    opts := Options.new capacity }

/-- A fresh file-backed log (`map_mut` on a new file): same layout, with the
arena marked on-disk. -/
def freshDiskLog (cs : List Nat → Nat) (fid capacity : Nat) : LogState :=
  { fid := fid
    arena := { freshArena capacity 0 with isOndisk := true }
    cs := cs
    opts := Options.new capacity }

/-- A concrete position-sensitive checksumer used to instantiate witnesses. -/
def csFold (bs : List Nat) : Nat :=
  bs.foldl (fun a b => a * 257 + b + 1) 1

/-- `MAGIC_TEXT` (`src/options.rs`): the bytes of the string `valog!`. -/
def MAGIC_TEXT : List Nat := [118, 97, 108, 111, 103, 33]

/-- The open-time header errors (`src/error.rs`, `bad_magic_text` and
`bad_magic_version`), surfaced by the source as `std::io` `InvalidData`
errors carrying those messages. -/
inductive OpenError where
  | badMagicText
  | badMagicVersion
deriving DecidableEq

/-- `check_header` (`src/options/open_options.rs`): compare the magic text,
then the little-endian `u16` version field against the configured
`magic_version`. -/
def check_header (buf : List Nat) (magicVersion : Nat) : Except OpenError Nat :=
  if buf.take 6 ≠ MAGIC_TEXT then .error .badMagicText
  else
    let v := fromLeBytes ((buf.drop 6).take 2)
    if v ≠ magicVersion then .error .badMagicVersion
    else .ok v

/-- A file on disk: whether it existed before the open call, and its bytes. -/
structure FileState where
  present : Bool
  content : Mem

/-- `write_header` (`src/options.rs`): the magic text followed by the
little-endian magic version, written at the start of the reserved region
(file offset 0 per spec section 6.1). -/
def write_header (m : Mem) (magicVersion : Nat) : Mem :=
  storeBytes m 0 (MAGIC_TEXT ++ u16le magicVersion)

/-- `map_mut` (`map_mut_with_path_builder`, `src/options/open_options.rs`):
if the file did not previously exist, write the header; otherwise check it.
Modelled from the spec where the source leaves the repository: the
file-backed arena mapping itself (`rarena` `map_mut`) is external, and its
reserved slice is the leading `HEADER_SIZE + reserved` bytes of the file. -/
def map_mut (f : FileState) (magicVersion : Nat) : Except OpenError FileState :=
  if f.present = false then
    .ok { present := true, content := write_header f.content magicVersion }
  else
    (check_header (readBytes f.content 0 HEADER_SIZE) magicVersion).map fun _ => f

/-- `map` (`map_with_path_builder`, `src/options/open_options.rs`): the
read-only open always checks the header. -/
def map_ro (f : FileState) (magicVersion : Nat) : Except OpenError FileState :=
  (check_header (readBytes f.content 0 HEADER_SIZE) magicVersion).map fun _ => f

/-! ## Byte-level lemmas -/

theorem toLeBytes_length (k n : Nat) : (toLeBytes k n).length = k := by
  induction k generalizing n with
  | zero => simp [toLeBytes]
  | succ k ih => simp [toLeBytes, ih]

theorem fromLeBytes_toLeBytes (k n : Nat) :
    fromLeBytes (toLeBytes k n) = n % 256 ^ k := by
  induction k generalizing n with
  | zero => simp [toLeBytes, fromLeBytes, Nat.mod_one]
  | succ k ih =>
    simp only [toLeBytes, fromLeBytes, ih]
    rw [pow_succ, mul_comm (256 ^ k) 256, Nat.mod_mul]

theorem u64le_length (n : Nat) : (u64le n).length = 8 := toLeBytes_length 8 n

theorem fromLeBytes_u64le (n : Nat) (h : n < 2 ^ 64) : fromLeBytes (u64le n) = n := by
  have h8 : (256 : Nat) ^ 8 = 2 ^ 64 := by norm_num
  rw [u64le, fromLeBytes_toLeBytes, h8, Nat.mod_eq_of_lt h]

theorem fromLeBytes_set_ne (bs : List Nat) (j b : Nat) (h : j < bs.length)
    (hb : b ≠ bs.getD j 0) :
    fromLeBytes (bs.set j b) ≠ fromLeBytes bs := by
  induction bs generalizing j with
  | nil => simp at h
  | cons a t ih =>
    cases j with
    | zero =>
      simp only [List.set, fromLeBytes]
      simp only [List.getD_cons_zero] at hb
      omega
    | succ j =>
      simp only [List.set, fromLeBytes]
      have hj : j < t.length := by simpa using h
      have hbj : b ≠ t.getD j 0 := by simpa using hb
      have := ih j hj hbj
      omega

/-! ## Memory lemmas -/

theorem readBytes_length (m : Mem) (off n : Nat) :
    (readBytes m off n).length = n := by
  simp [readBytes]

theorem readBytes_getElem (m : Mem) (off n i : Nat)
    (h : i < (readBytes m off n).length) :
    (readBytes m off n)[i] = m (off + i) := by
  simp only [readBytes_length] at h
  simp [readBytes]

theorem storeBytes_of_lt (m : Mem) (off : Nat) (bs : List Nat) (j : Nat)
    (h : j < off) : storeBytes m off bs j = m j := by
  simp only [storeBytes]
  rw [if_neg]; omega

theorem storeBytes_of_ge (m : Mem) (off : Nat) (bs : List Nat) (j : Nat)
    (h : off + bs.length ≤ j) : storeBytes m off bs j = m j := by
  simp only [storeBytes]
  rw [if_neg]; omega

theorem storeBytes_of_mem (m : Mem) (off : Nat) (bs : List Nat) (j : Nat)
    (h1 : off ≤ j) (h2 : j < off + bs.length) :
    storeBytes m off bs j = bs.getD (j - off) 0 := by
  simp only [storeBytes]
  rw [if_pos ⟨h1, h2⟩]

theorem readBytes_storeBytes (m : Mem) (off : Nat) (bs : List Nat) :
    readBytes (storeBytes m off bs) off bs.length = bs := by
  apply List.ext_getElem
  · simp [readBytes_length]
  · intro i h1 h2
    rw [readBytes_getElem _ _ _ _ (by simp [readBytes_length]; omega)]
    rw [storeBytes_of_mem _ _ _ _ (by omega) (by omega)]
    simp [List.getD_eq_getElem, List.getElem?_eq_getElem h2]

theorem readBytes_congr (m1 m2 : Mem) (off n : Nat)
    (h : ∀ j, off ≤ j → j < off + n → m1 j = m2 j) :
    readBytes m1 off n = readBytes m2 off n := by
  apply List.ext_getElem
  · simp [readBytes_length]
  · intro i h1 h2
    have hi : i < n := by simpa [readBytes_length] using h1
    rw [readBytes_getElem _ _ _ _ (by simp [readBytes_length]; omega),
      readBytes_getElem _ _ _ _ (by simp [readBytes_length]; omega)]
    exact h _ (by omega) (by omega)

theorem readBytes_take (m : Mem) (off n k : Nat) (h : k ≤ n) :
    (readBytes m off n).take k = readBytes m off k := by
  apply List.ext_getElem
  · simp [readBytes_length]; omega
  · intro i h1 h2
    have hi : i < k := by simpa [readBytes_length] using h2
    rw [List.getElem_take]
    rw [readBytes_getElem _ _ _ _ (by simp [readBytes_length]; omega),
      readBytes_getElem _ _ _ _ (by simp [readBytes_length]; omega)]

theorem readBytes_drop (m : Mem) (off n k : Nat) :
    (readBytes m off n).drop k = readBytes m (off + k) (n - k) := by
  apply List.ext_getElem
  · simp [readBytes_length]
  · intro i h1 h2
    have hi : i < n - k := by simpa [readBytes_length] using h2
    rw [List.getElem_drop]
    rw [readBytes_getElem _ _ _ _ (by simp [readBytes_length]; omega),
      readBytes_getElem _ _ _ _ (by simp [readBytes_length]; omega)]
    congr 1
    omega

theorem readBytes_store1_in (m : Mem) (off n i b : Nat)
    (h1 : off ≤ i) (_h2 : i < off + n) :
    readBytes (store1 m i b) off n = (readBytes m off n).set (i - off) b := by
  apply List.ext_getElem
  · simp [readBytes_length]
  · intro k hk1 hk2
    have hk : k < n := by simpa [readBytes_length] using hk1
    rw [readBytes_getElem _ _ _ _ (by simp [readBytes_length]; omega), List.getElem_set]
    simp only [store1]
    by_cases hc : off + k = i
    · rw [if_pos hc, if_pos (by omega)]
    · rw [if_neg hc, if_neg (by omega),
        readBytes_getElem _ _ _ _ (by simp [readBytes_length]; omega)]

theorem readBytes_store1_out (m : Mem) (off n i b : Nat)
    (h : i < off ∨ off + n ≤ i) :
    readBytes (store1 m i b) off n = readBytes m off n := by
  apply readBytes_congr
  intro j hj1 hj2
  simp only [store1]
  rw [if_neg (by omega)]

/-! ## The insert and read paths, characterized -/

/-- Successful non-empty insert, inverted: the returned pointer and every
component of the post-state, read off the branches of `insert_in`. -/
theorem insert_ok_inv (s : LogState) (v : List Nat) (p : ValuePointer)
    (hne : v ≠ []) (h : (s.insert v).2 = .ok p) :
    p = ⟨s.fid, s.arena.allocated, v.length⟩ ∧
    v.length + CHECKSUM_LEN ≤ s.opts.maxValueSize ∧
    s.arena.allocated + (v.length + CHECKSUM_LEN) ≤ s.arena.capacity ∧
    (s.insert v).1.fid = s.fid ∧
    (s.insert v).1.cs = s.cs ∧
    (s.insert v).1.opts = s.opts ∧
    (s.insert v).1.arena.dataOffset = s.arena.dataOffset ∧
    (s.insert v).1.arena.allocated = s.arena.allocated + (v.length + CHECKSUM_LEN) ∧
    (s.insert v).1.arena.capacity = s.arena.capacity ∧
    (s.insert v).1.arena.discarded = s.arena.discarded ∧
    (s.insert v).1.arena.isOndisk = s.arena.isOndisk ∧
    (s.insert v).1.arena.mem =
      storeBytes (storeBytes s.arena.mem s.arena.allocated v)
        (s.arena.allocated + v.length) (u64le (s.checksum v)) := by
  have h0 : ¬ v.length = 0 := by simpa using hne
  by_cases hmax : v.length + CHECKSUM_LEN > s.opts.maxValueSize
  · simp [LogState.insert, h0, hmax] at h
  by_cases hcap : s.arena.allocated + (v.length + CHECKSUM_LEN) > s.arena.capacity
  · simp [LogState.insert, Arena.allocBytes, h0, hmax, hcap] at h
  have hp : p = ⟨s.fid, s.arena.allocated, v.length⟩ := by
    by_cases hsync : s.opts.sync = true ∧ s.arena.isOndisk = true <;>
      simp [LogState.insert, Arena.allocBytes, h0, hmax, hcap, hsync] at h <;>
      exact h.symm
  by_cases hsync : s.opts.sync = true ∧ s.arena.isOndisk = true <;>
    refine ⟨hp, by omega, by omega, ?_⟩ <;>
    simp [LogState.insert, Arena.allocBytes, h0, hmax, hcap, hsync]

/-- An in-bounds read with checksum validation on reduces to the comparison
between the stored trailing checksum and the recomputed digest. -/
theorem read_spec (s : LogState) (offset len : Nat)
    (hne0 : ¬(offset = 0 ∧ len = 0))
    (hlow : s.arena.dataOffset ≤ offset)
    (hhigh : offset + len + CHECKSUM_LEN ≤ s.arena.allocated)
    (hval : s.opts.validateChecksum = true) :
    s.read offset len =
      (if fromLeBytes ((readBytes s.arena.mem offset (len + CHECKSUM_LEN)).drop len)
          ≠ s.checksum ((readBytes s.arena.mem offset (len + CHECKSUM_LEN)).take len)
       then .error .checksumMismatch
       else .ok ((readBytes s.arena.mem offset (len + CHECKSUM_LEN)).take len)) := by
  simp only [LogState.read]
  rw [if_neg hne0, if_neg (by omega), if_neg (by omega), if_pos hval]

/-- Reading back a record written as payload followed by checksum yields the
concatenation of the two. -/
theorem readBytes_two_stores (m : Mem) (off : Nat) (v cb : List Nat) :
    readBytes (storeBytes (storeBytes m off v) (off + v.length) cb) off
      (v.length + cb.length) = v ++ cb := by
  apply List.ext_getElem
  · simp [readBytes_length]
  · intro i h1 h2
    have hi : i < v.length + cb.length := by simpa [readBytes_length] using h1
    rw [readBytes_getElem _ _ _ _ (by simp [readBytes_length]; omega)]
    by_cases hc : i < v.length
    · rw [storeBytes_of_lt _ _ _ _ (by omega),
        storeBytes_of_mem _ _ _ _ (by omega) (by omega),
        List.getElem_append_left (by omega)]
      simp [List.getD_eq_getElem, List.getElem?_eq_getElem hc]
    · rw [storeBytes_of_mem _ _ _ _ (by omega) (by omega),
        List.getElem_append_right (by omega)]
      have hcb : i - v.length < cb.length := by omega
      have harith : off + i - (off + v.length) = i - v.length := by omega
      rw [harith]
      simp [List.getD_eq_getElem, List.getElem?_eq_getElem hcb]

/-- The insert path never touches the discarded counter. -/
theorem insert_discarded (s : LogState) (v : List Nat) :
    (s.insert v).1.arena.discarded = s.arena.discarded := by
  by_cases h0 : v.length = 0
  · simp [LogState.insert, h0]
  by_cases hmax : v.length + CHECKSUM_LEN > s.opts.maxValueSize
  · simp [LogState.insert, h0, hmax]
  by_cases hcap : s.arena.allocated + (v.length + CHECKSUM_LEN) > s.arena.capacity
  · simp [LogState.insert, Arena.allocBytes, h0, hmax, hcap]
  by_cases hsync : s.opts.sync = true ∧ s.arena.isOndisk = true <;>
    simp [LogState.insert, Arena.allocBytes, h0, hmax, hcap, hsync]

/-! ## Claims -/

/-- C1: for every log with validate_checksum = true and every non-empty
payload v, if insert(v) returns a pointer p then p.size is the length of v
and a subsequent read(p.offset, p.size) on the same log returns Ok with
exactly the original bytes (the arena invariant data_offset ≤ allocated holds
of every reachable log state). -/
theorem C1_insert_read_roundtrip (s : LogState) (v : List Nat) (p : ValuePointer)
    (hne : v ≠ []) (hval : s.opts.validateChecksum = true)
    (hinv : s.arena.dataOffset ≤ s.arena.allocated)
    (h : (s.insert v).2 = .ok p) :
    p.size = v.length ∧ (s.insert v).1.read p.offset p.size = .ok v := by
  obtain ⟨hp, hmax, hcap, hfid, hcs, hopts, hdo, hal, hc2, hd2, ho2, hmem⟩ :=
    insert_ok_inv s v p hne h
  subst hp
  refine ⟨rfl, ?_⟩
  have hvl : v.length ≠ 0 := by simpa using hne
  have hbuf : readBytes (s.insert v).1.arena.mem s.arena.allocated (v.length + CHECKSUM_LEN)
      = v ++ u64le (s.checksum v) := by
    rw [hmem]
    have h2s := readBytes_two_stores s.arena.mem s.arena.allocated v (u64le (s.checksum v))
    rwa [u64le_length] at h2s
  show (s.insert v).1.read s.arena.allocated v.length = .ok v
  rw [read_spec _ _ _ (by simp [hvl]) (by rw [hdo]; exact hinv) (by rw [hal]; omega)
    (by rw [hopts]; exact hval)]
  rw [hbuf, List.take_left, List.drop_left]
  have hlt : s.checksum v < 2 ^ 64 := by
    simp only [LogState.checksum]
    exact Nat.mod_lt _ (by norm_num)
  rw [fromLeBytes_u64le _ hlt]
  have hdig : (s.insert v).1.checksum v = s.checksum v := by
    simp [LogState.checksum, hcs]
  rw [hdig, if_neg (by simp)]

/-- C1 witness: on a fresh capacity-100 log, inserting the bytes 1, 2, 3
returns the pointer (0, 9, 3), whose size is the payload length, and reading
it back yields the original bytes. -/
theorem C1_witness :
    ((freshLog csFold 0 100).insert [1, 2, 3]).2 = .ok ⟨0, 9, 3⟩ ∧
    (ValuePointer.mk 0 9 3).size = [1, 2, 3].length ∧
    ((freshLog csFold 0 100).insert [1, 2, 3]).1.read 9 3 = .ok [1, 2, 3] := by
  have h := C1_insert_read_roundtrip (freshLog csFold 0 100) [1, 2, 3] ⟨0, 9, 3⟩
    (by decide) (by decide) (by decide) (by decide)
  exact ⟨by decide, h.1, h.2⟩

/-- C2: after a successful non-empty insert at offset o with size s, the
8 bytes at o + s hold the checksumer digest of the payload serialized
little-endian; and with validation on, changing any single byte of the
record makes the read return ChecksumMismatch — for payload bytes under the
hypothesis that the checksumer distinguishes the corrupted payload (the
default Crc32 detects every single-byte substitution); for trailing-checksum
bytes unconditionally. -/
theorem C2_layout_and_corruption (s : LogState) (v : List Nat) (p : ValuePointer)
    (hne : v ≠ []) (hval : s.opts.validateChecksum = true)
    (hinv : s.arena.dataOffset ≤ s.arena.allocated)
    (h : (s.insert v).2 = .ok p) :
    readBytes (s.insert v).1.arena.mem (p.offset + p.size) CHECKSUM_LEN
      = u64le (s.checksum v) ∧
    ∀ i b, p.offset ≤ i → i < p.offset + p.size + CHECKSUM_LEN →
      b ≠ (s.insert v).1.arena.mem i →
      (i < p.offset + p.size → s.checksum (v.set (i - p.offset) b) ≠ s.checksum v) →
      LogState.read
        { (s.insert v).1 with
          arena := { (s.insert v).1.arena with
                     mem := store1 (s.insert v).1.arena.mem i b } }
        p.offset p.size = .error .checksumMismatch := by
  obtain ⟨hp, hmax, hcap, hfid, hcs, hopts, hdo, hal, hc2, hd2, ho2, hmem⟩ :=
    insert_ok_inv s v p hne h
  have hvl : v.length ≠ 0 := by simpa using hne
  have hcbl : (u64le (s.checksum v)).length = CHECKSUM_LEN := u64le_length _
  have ha : readBytes (s.insert v).1.arena.mem (s.arena.allocated + v.length) CHECKSUM_LEN
      = u64le (s.checksum v) := by
    rw [hmem, ← hcbl]
    exact readBytes_storeBytes _ _ _
  have hpayload : readBytes (s.insert v).1.arena.mem s.arena.allocated v.length = v := by
    rw [hmem]
    rw [readBytes_congr
      (storeBytes (storeBytes s.arena.mem s.arena.allocated v)
        (s.arena.allocated + v.length) (u64le (s.checksum v)))
      (storeBytes s.arena.mem s.arena.allocated v) s.arena.allocated v.length
      (fun j hj1 hj2 => storeBytes_of_lt _ _ _ _ (by omega))]
    exact readBytes_storeBytes _ _ _
  refine ⟨by simp only [hp]; exact ha, ?_⟩
  intro i b hi1 hi2 hb hdet
  simp only [hp] at hi1 hi2 hb hdet ⊢
  have hread := read_spec
    { (s.insert v).1 with
      arena := { (s.insert v).1.arena with mem := store1 (s.insert v).1.arena.mem i b } }
    s.arena.allocated v.length
    (by simp [hvl])
    (by show (s.insert v).1.arena.dataOffset ≤ _; rw [hdo]; exact hinv)
    (by show s.arena.allocated + v.length + CHECKSUM_LEN ≤ (s.insert v).1.arena.allocated
        rw [hal]; omega)
    (by show (s.insert v).1.opts.validateChecksum = true; rw [hopts]; exact hval)
  rw [hread]
  have htake : (readBytes (store1 (s.insert v).1.arena.mem i b) s.arena.allocated
      (v.length + CHECKSUM_LEN)).take v.length
      = readBytes (store1 (s.insert v).1.arena.mem i b) s.arena.allocated v.length :=
    readBytes_take _ _ _ _ (by omega)
  have hdrop : (readBytes (store1 (s.insert v).1.arena.mem i b) s.arena.allocated
      (v.length + CHECKSUM_LEN)).drop v.length
      = readBytes (store1 (s.insert v).1.arena.mem i b) (s.arena.allocated + v.length)
          CHECKSUM_LEN := by
    rw [readBytes_drop, Nat.add_sub_cancel_left]
  rw [htake, hdrop]
  have hlt : s.checksum v < 2 ^ 64 := by
    simp only [LogState.checksum]
    exact Nat.mod_lt _ (by norm_num)
  by_cases hc : i < s.arena.allocated + v.length
  · -- a payload byte was corrupted
    have ht1 : readBytes (store1 (s.insert v).1.arena.mem i b) s.arena.allocated v.length
        = v.set (i - s.arena.allocated) b := by
      rw [readBytes_store1_in _ _ _ _ _ hi1 (by omega), hpayload]
    have ht2 : readBytes (store1 (s.insert v).1.arena.mem i b)
        (s.arena.allocated + v.length) CHECKSUM_LEN = u64le (s.checksum v) := by
      rw [readBytes_store1_out _ _ _ _ _ (by omega), ha]
    rw [ht1, ht2, fromLeBytes_u64le _ hlt]
    have hdig : LogState.checksum
        { (s.insert v).1 with
          arena := { (s.insert v).1.arena with mem := store1 (s.insert v).1.arena.mem i b } }
        (v.set (i - s.arena.allocated) b)
        = s.checksum (v.set (i - s.arena.allocated) b) := by
      simp [LogState.checksum, hcs]
    rw [hdig, if_pos (Ne.symm (hdet hc))]
  · -- a trailing-checksum byte was corrupted
    have ht1 : readBytes (store1 (s.insert v).1.arena.mem i b) s.arena.allocated v.length
        = v := by
      rw [readBytes_store1_out _ _ _ _ _ (by omega), hpayload]
    have hj : i - (s.arena.allocated + v.length) < (u64le (s.checksum v)).length := by
      rw [hcbl]; omega
    have hmi : (s.insert v).1.arena.mem i
        = (u64le (s.checksum v)).getD (i - (s.arena.allocated + v.length)) 0 := by
      rw [hmem, storeBytes_of_mem _ _ _ _ (by omega) (by rw [hcbl]; omega)]
    have hbval : b ≠ (u64le (s.checksum v)).getD (i - (s.arena.allocated + v.length)) 0 := by
      rw [← hmi]; exact hb
    have ht2 : readBytes (store1 (s.insert v).1.arena.mem i b)
        (s.arena.allocated + v.length) CHECKSUM_LEN
        = (u64le (s.checksum v)).set (i - (s.arena.allocated + v.length)) b := by
      rw [readBytes_store1_in _ _ _ _ _ (by omega) (by omega), ha]
    rw [ht1, ht2]
    have hstored :
        fromLeBytes ((u64le (s.checksum v)).set (i - (s.arena.allocated + v.length)) b)
          ≠ fromLeBytes (u64le (s.checksum v)) :=
      fromLeBytes_set_ne _ _ _ hj hbval
    rw [fromLeBytes_u64le _ hlt] at hstored
    have hdig : LogState.checksum
        { (s.insert v).1 with
          arena := { (s.insert v).1.arena with mem := store1 (s.insert v).1.arena.mem i b } }
        v = s.checksum v := by
      simp [LogState.checksum, hcs]
    rw [hdig, if_pos hstored]

/-- C2 witness: on a fresh capacity-100 log, after inserting the bytes
1, 2, 3 at pointer (0, 9, 3), overwriting the first payload byte with 0
makes the read return ChecksumMismatch. -/
theorem C2_witness :
    LogState.read
      { ((freshLog csFold 0 100).insert [1, 2, 3]).1 with
        arena := { ((freshLog csFold 0 100).insert [1, 2, 3]).1.arena with
                   mem := store1 ((freshLog csFold 0 100).insert [1, 2, 3]).1.arena.mem 9 0 } }
      9 3 = .error .checksumMismatch := by
  have h := C2_layout_and_corruption (freshLog csFold 0 100) [1, 2, 3] ⟨0, 9, 3⟩
    (by decide) (by decide) (by decide) (by decide)
  exact h.2 9 0 (by decide) (by decide) (by decide) (by decide)

/-- C3: inserting an empty payload returns Ok with the pointer
(log id, 0, 0), touches the arena in no way — in particular the allocated
high-water mark and the discarded counter are unchanged. -/
theorem C3_insert_empty (s : LogState) :
    s.insert [] = (s, .ok ⟨s.fid, 0, 0⟩) ∧
    (s.insert []).1.arena.allocated = s.arena.allocated ∧
    (s.insert []).1.arena.discarded = s.arena.discarded :=
  ⟨rfl, rfl, rfl⟩

/-- C4 counterexample: the empty-read fast path of `Reader::read` requires
offset == 0 as well as size == 0; a size-zero read at offset 5 on a fresh
capacity-100 log is not Ok but OutOfBounds. -/
theorem C4_counterexample :
    (freshLog csFold 0 100).read 5 0 ≠ .ok [] ∧
    (freshLog csFold 0 100).read 5 0 = .error (.outOfBounds 5 8 9 9) := by
  decide

/-- C4 (amended): read(0, 0) succeeds with the empty slice, but the offset is
not ignored when the size is zero — for offset ≠ 0 the size-zero read takes
the ordinary bounds-checked path, returning OutOfBounds with len = 8 when
the offset is below data_offset. -/
theorem C4_read_size_zero (s : LogState) :
    s.read 0 0 = .ok [] ∧
    ∀ offset, offset ≠ 0 → offset < s.arena.dataOffset →
      s.read offset 0 = .error
        (.outOfBounds offset CHECKSUM_LEN s.arena.dataOffset s.arena.allocated) := by
  constructor
  · simp [LogState.read]
  · intro offset h1 h2
    simp only [LogState.read]
    rw [if_neg (by simp [h1]), if_pos h2]
    simp

/-- C4 witness: on a fresh capacity-100 log, read(0, 0) is Ok with the empty
slice while read(5, 0) is OutOfBounds. -/
theorem C4_witness :
    (freshLog csFold 0 100).read 0 0 = .ok [] ∧
    (freshLog csFold 0 100).read 5 0 = .error (.outOfBounds 5 CHECKSUM_LEN 9 9) :=
  ⟨(C4_read_size_zero (freshLog csFold 0 100)).1,
   (C4_read_size_zero (freshLog csFold 0 100)).2 5 (by decide) (by decide)⟩

/-- C5 counterexample: on a freshly allocated capacity-100 log with
reserved 0, read(0, 10) carries data_offset 9 and end_offset 9, not the 8
and 8 the claim states; the arena's data_offset is 9 + reserved (the doc-test
on Log::data_offset in src/log/common.rs), not 8 + reserved. -/
theorem C5_counterexample :
    (freshLog csFold 0 100).read 0 10 ≠ .error (.outOfBounds 0 18 8 8) ∧
    (freshLog csFold 0 100).read 0 10 = .error (.outOfBounds 0 18 9 9) ∧
    (freshLog csFold 0 100).arena.dataOffset
      ≠ HEADER_SIZE + (freshLog csFold 0 100).opts.reserved := by
  decide

/-- C5 (amended): for size > 0, read returns OutOfBounds exactly when
offset < data_offset or offset + size + 8 > allocated, carrying the fields
(offset, size + 8, data_offset, allocated) — and no OutOfBounds error with
any other fields is ever returned; data_offset is 9 + reserved, so on a
fresh capacity-100 reserved-0 log, read(0, 10) returns
OutOfBounds (0, 18, 9, 9). -/
theorem C5_read_out_of_bounds (s : LogState) (offset size : Nat) (hpos : 0 < size) :
    (s.read offset size
        = .error (.outOfBounds offset (size + CHECKSUM_LEN)
            s.arena.dataOffset s.arena.allocated)
      ↔ offset < s.arena.dataOffset ∨
          offset + size + CHECKSUM_LEN > s.arena.allocated) ∧
    (∀ o l d e, s.read offset size = .error (.outOfBounds o l d e) →
      o = offset ∧ l = size + CHECKSUM_LEN ∧
      d = s.arena.dataOffset ∧ e = s.arena.allocated) ∧
    (freshLog csFold 0 100).read 0 10 = .error (.outOfBounds 0 18 9 9) := by
  refine ⟨⟨?_, ?_⟩, ?_, by decide⟩
  · intro hread
    by_contra hcond
    push_neg at hcond
    obtain ⟨hlow, hhigh⟩ := hcond
    simp only [LogState.read] at hread
    rw [if_neg (by omega), if_neg (by omega), if_neg (by omega)] at hread
    split at hread
    · split at hread <;> simp_all
    · simp_all
  · intro hcond
    simp only [LogState.read]
    rw [if_neg (by omega)]
    rcases hcond with hc | hc
    · rw [if_pos hc]
    · by_cases hlow : offset < s.arena.dataOffset
      · rw [if_pos hlow]
      · rw [if_neg hlow, if_pos (by omega)]
  · intro o l d e hread
    simp only [LogState.read] at hread
    rw [if_neg (by omega)] at hread
    by_cases hlow : offset < s.arena.dataOffset
    · rw [if_pos hlow] at hread
      simp at hread
      omega
    · rw [if_neg hlow] at hread
      by_cases hhigh : offset + size + CHECKSUM_LEN > s.arena.allocated
      · rw [if_pos hhigh] at hread
        simp at hread
        omega
      · rw [if_neg hhigh] at hread
        split at hread
        · split at hread <;> simp_all
        · simp_all

/-- C5 witness: on a fresh capacity-100 log, read(10, 10), whose range ends
past the allocated mark, returns OutOfBounds (10, 18, 9, 9). -/
theorem C5_witness :
    (freshLog csFold 0 100).read 10 10 = .error (.outOfBounds 10 18 9 9) :=
  ((C5_read_out_of_bounds (freshLog csFold 0 100) 10 10 (by decide)).1).mpr
    (by decide)

/-- A capacity-100 log whose maximum_value_size is 3
(Builder with with_maximum_value_size(3)). -/
def smallMaxLog : LogState :=
  { freshLog csFold 0 100 with opts := { Options.new 100 with maxValueSize := 3 } }

/-- C6 counterexample: the empty-payload fast path precedes the size check,
so with maximum_value_size 3 the empty payload — whose length plus 8 exceeds
3 — still returns Ok rather than ValueTooLarge. -/
theorem C6_counterexample :
    List.length ([] : List Nat) + CHECKSUM_LEN > smallMaxLog.opts.maxValueSize ∧
    (smallMaxLog.insert []).2 = .ok ⟨0, 0, 0⟩ := by
  decide

/-- C6 (amended): for every non-empty payload whose length plus 8 exceeds
max_value_size, insert returns ValueTooLarge (payload length + 8,
max_value_size) before any allocation and with the state unchanged. -/
theorem C6_value_too_large (s : LogState) (v : List Nat) (hne : v ≠ [])
    (h : v.length + CHECKSUM_LEN > s.opts.maxValueSize) :
    s.insert v
      = (s, .error (.valueTooLarge (v.length + CHECKSUM_LEN) s.opts.maxValueSize)) := by
  have h0 : ¬ v.length = 0 := by simpa using hne
  simp [LogState.insert, h0, h]

/-- C6 witness: with capacity 100 and maximum_value_size 3, inserting a
10-byte payload returns ValueTooLarge (18, 3) and leaves the log unchanged. -/
theorem C6_witness :
    smallMaxLog.insert (List.replicate 10 0)
      = (smallMaxLog, .error (.valueTooLarge 18 3)) := by
  have h := C6_value_too_large smallMaxLog (List.replicate 10 0) (by decide) (by decide)
  exact h

/-- The state after inserting 1, 2, 3 into a fresh log, rebadged with log
id 1, so that the pointer (id 0, offset 9, size 3) was produced by a log
with a different id. -/
def c7OtherLog : LogState :=
  { ((freshLog csFold 0 100).insert [1, 2, 3]).1 with fid := 1 }

/-- C7 counterexample: reads take no expected id — the pointer (0, 9, 3)
produced by the log with id 0 reads back Ok on the log rebadged with id 1
instead of failing with an id-mismatch error (the Error enum of
src/error.rs has no such variant). -/
theorem C7_counterexample :
    (((freshLog csFold 0 100).insert [1, 2, 3]).2 = .ok ⟨0, 9, 3⟩) ∧
    c7OtherLog.fid = 1 ∧
    (0 : Nat) ≠ 1 ∧
    c7OtherLog.read 9 3 = .ok [1, 2, 3] := by
  decide

/-- C7 (amended): Reader::read takes only an offset and a size and performs
no id check: its result is independent of the log's id, there is no
IdMismatch variant in the error enum, and a pointer produced by a log with
a different id reads back successfully when bounds and checksum pass. -/
theorem C7_read_has_no_id_check :
    (∀ (s : LogState) (i1 i2 offset len : Nat),
      LogState.read { s with fid := i1 } offset len
        = LogState.read { s with fid := i2 } offset len) ∧
    LogState.read { ((freshLog csFold 0 100).insert [1, 2, 3]).1 with fid := 1 } 9 3
      = .ok [1, 2, 3] :=
  ⟨fun _ _ _ _ _ => rfl, by decide⟩

/-- C8 counterexample: the pointer returned by a tombstone insert is not
marked in any way — ValuePointer has no tombstone field, and the tombstone
insert of 1, 2, 3 on a fresh log returns exactly the pointer (0, 9, 3) that
the plain insert returns. -/
theorem C8_counterexample :
    ((freshLog csFold 0 100).insertTombstone [1, 2, 3]).2
      = ((freshLog csFold 0 100).insert [1, 2, 3]).2 ∧
    ((freshLog csFold 0 100).insertTombstone [1, 2, 3]).2 = .ok ⟨0, 9, 3⟩ := by
  decide

/-- C8 (amended): a tombstone insert writes exactly the record bytes a plain
insert writes and returns the same (unmarked) pointer; on success the
discarded counter becomes its prior value plus the payload length, and
discarded never decreases across insert or tombstone insert. -/
theorem C8_tombstone_behavior (s : LogState) (v : List Nat) :
    (s.insertTombstone v).2 = (s.insert v).2 ∧
    (s.insertTombstone v).1.arena.mem = (s.insert v).1.arena.mem ∧
    (s.insertTombstone v).1.arena.allocated = (s.insert v).1.arena.allocated ∧
    (∀ p, (s.insertTombstone v).2 = .ok p →
      (s.insertTombstone v).1.arena.discarded = s.arena.discarded + v.length) ∧
    s.arena.discarded ≤ (s.insertTombstone v).1.arena.discarded ∧
    (s.insert v).1.arena.discarded = s.arena.discarded := by
  have hd := insert_discarded s v
  rcases hi : s.insert v with ⟨s1, r⟩
  rw [hi] at hd
  cases r with
  | ok p =>
    have ht : s.insertTombstone v
        = ({ s1 with arena := { s1.arena with
              discarded := s1.arena.discarded + v.length } }, .ok p) := by
      simp [LogState.insertTombstone, hi]
    have hd2 : s1.arena.discarded = s.arena.discarded := hd
    rw [ht]
    refine ⟨rfl, rfl, rfl, fun q _ => ?_, ?_, hd⟩
    · show s1.arena.discarded + v.length = s.arena.discarded + v.length
      omega
    · show s.arena.discarded ≤ s1.arena.discarded + v.length
      omega
  | error e =>
    have hd2 : s1.arena.discarded = s.arena.discarded := hd
    have ht : s.insertTombstone v = (s1, .error e) := by
      simp [LogState.insertTombstone, hi]
    rw [ht]
    exact ⟨rfl, rfl, rfl, fun q hq => by simp at hq, le_of_eq hd2.symm, hd⟩

/-- C8 witness: the tombstone insert of 1, 2, 3 on a fresh log raises the
discarded counter from 0 to the prior value plus the payload length 3. -/
theorem C8_witness :
    ((freshLog csFold 0 100).insertTombstone [1, 2, 3]).1.arena.discarded
      = (freshLog csFold 0 100).arena.discarded + [1, 2, 3].length :=
  (C8_tombstone_behavior (freshLog csFold 0 100) [1, 2, 3]).2.2.2.1 ⟨0, 9, 3⟩
    (by decide)

/-- C9: evaluating the insert path at its failing input — a successful
insert of 1, 2, 3 on a file-backed log with sync = true — shows the code
issues exactly one flush_range (begin_offset, len) call and no
flush_header_and_range call, while the claim (and the writer's own TODO
comment) require the header to be flushed along with the record's range. -/
theorem C9_sync_insert_flushes_range_only :
    ((freshDiskLog csFold 0 100).insert [1, 2, 3]).2 = .ok ⟨0, 9, 3⟩ ∧
    ((freshDiskLog csFold 0 100).insert [1, 2, 3]).1.arena.flushes
      = [FlushCall.range 9 11] := by
  decide

/-- C10: a map_mut open writes the magic header (6 bytes "valog!" then the
little-endian magic version) exactly when the file did not previously exist;
when the file exists (and always for the read-only map), the stored magic
text must equal "valog!" or the open fails with the bad-magic-text
InvalidData error, and the stored 16-bit version must equal
options.magic_version or it fails with the bad-magic-version InvalidData
error. -/
theorem C10_open_header_check (f : FileState) (mv : Nat) :
    (f.present = false →
      map_mut f mv = .ok { present := true, content := write_header f.content mv } ∧
      readBytes (write_header f.content mv) 0 HEADER_SIZE = MAGIC_TEXT ++ u16le mv) ∧
    (f.present = true →
      ((readBytes f.content 0 HEADER_SIZE).take 6 ≠ MAGIC_TEXT →
        map_mut f mv = .error .badMagicText ∧ map_ro f mv = .error .badMagicText) ∧
      ((readBytes f.content 0 HEADER_SIZE).take 6 = MAGIC_TEXT →
        fromLeBytes (((readBytes f.content 0 HEADER_SIZE).drop 6).take 2) ≠ mv →
        map_mut f mv = .error .badMagicVersion ∧ map_ro f mv = .error .badMagicVersion) ∧
      ((readBytes f.content 0 HEADER_SIZE).take 6 = MAGIC_TEXT →
        fromLeBytes (((readBytes f.content 0 HEADER_SIZE).drop 6).take 2) = mv →
        map_mut f mv = .ok f ∧ map_ro f mv = .ok f)) := by
  constructor
  · intro hab
    constructor
    · simp [map_mut, hab]
    · have hlen : (MAGIC_TEXT ++ u16le mv).length = HEADER_SIZE := by
        simp [MAGIC_TEXT, u16le, toLeBytes_length, HEADER_SIZE]
      rw [write_header, ← hlen]
      exact readBytes_storeBytes _ _ _
  · intro hpres
    refine ⟨?_, ?_, ?_⟩
    · intro htext
      constructor <;>
        simp [map_mut, map_ro, check_header, hpres, htext, Except.map]
    · intro htext hver
      constructor <;>
        simp [map_mut, map_ro, check_header, hpres, htext, hver, Except.map]
    · intro htext hver
      constructor <;>
        simp [map_mut, map_ro, check_header, hpres, htext, hver, Except.map]

/-- An open call on a path where no file exists yet. -/
def c10Absent : FileState := ⟨false, fun _ => 0⟩

/-- An existing file whose leading bytes are all zero: its magic text is not
"valog!". -/
def c10BadText : FileState := ⟨true, fun _ => 0⟩

/-- An existing file carrying a valid header with magic version 5. -/
def c10Good : FileState := ⟨true, write_header (fun _ => 0) 5⟩

/-- C10 witness: opening the zeroed file fails with bad magic text; opening
the version-5 file with configured version 6 fails with bad magic version
and with version 5 succeeds; map_mut on an absent path writes the header. -/
theorem C10_witness :
    map_ro c10BadText 0 = .error .badMagicText ∧
    map_mut c10Good 6 = .error .badMagicVersion ∧
    map_mut c10Good 5 = .ok c10Good ∧
    map_mut c10Absent 5
      = .ok { present := true, content := write_header c10Absent.content 5 } :=
  ⟨(((C10_open_header_check c10BadText 0).2 rfl).1 (by decide)).2,
   (((C10_open_header_check c10Good 6).2 rfl).2.1 (by decide) (by decide)).1,
   (((C10_open_header_check c10Good 5).2 rfl).2.2 (by decide) (by decide)).1,
   ((C10_open_header_check c10Absent 5).1 rfl).1⟩
